import Mathlib

/-
  Verification of the action router in `api/handle.js`.

  The handler is a single HTTP entry point that multiplexes seven
  object-storage operations behind an `?action=` query parameter.  We embed
  it shallowly: the external blob store (`put` / `list` / `del` of
  `@vercel/blob`, plus plain `fetch` of stored JSON) is a record of oracles,
  JavaScript values parsed from JSON are an inductive `Json` type, and the
  handler is a pure function from an environment (clock, `NODE_ENV`), a
  store and a request to a `Response` together with the list of store calls
  it performed (the effect trace).  `await`-ed rejections are modelled with
  `Except JsError`, threaded in explicit state-passing style
  (`List Effect → Except JsError α × List Effect`), mirroring the source's
  control flow branch by branch.
-/

namespace Api

/-- JSON values, as produced by `request.json()` / `response.json()` and as
serialized into response bodies.  Numbers are modelled as integers (every
number appearing in the source's bodies is a length, size or count). -/
inductive Json where
  | null
  | bool (b : Bool)
  | num (n : Int)
  | str (s : String)
  | arr (elems : List Json)
  | obj (fields : List (String × Json))

/-- JavaScript truthiness of a `Json` value (`if (x)`, `x || d`):
`null`, `false`, `0` and `""` are falsy; every object and array is truthy. -/
def truthy : Json → Bool
  | .null => false
  | .bool b => b
  | .num n => n != 0
  | .str s => s != ""
  | .arr _ => true
  | .obj _ => true

/-- Property access `v.k` on a non-null value: `some` for a present object
field, `none` for JavaScript `undefined` (primitives and arrays have none of
the keys the source reads).  Access on `null` throws and is handled at each
call site, mirroring where the source would raise a `TypeError`. -/
def getField : Json → String → Option Json
  | .obj fields, k => fields.lookup k
  | _, _ => none

/-- Truthiness of a possibly-`undefined` value (`x.k` is `undefined` when the
field is absent, and `undefined` is falsy). -/
def truthyO : Option Json → Bool
  | some v => truthy v
  | none => false

/-- Models `x.k || d`: the field's value when present and truthy, else `d`. -/
def truthyOr (o : Option Json) (d : Json) : Json :=
  match o with
  | some v => if truthy v then v else d
  | none => d

/-- Models `searchParams.get(k) || d`: `get` returns `null` when the
parameter is absent, and the empty string is also falsy. -/
def strOr (o : Option String) (d : String) : String :=
  match o with
  | some s => if s = "" then d else s
  | none => d

/-- Whether `searchParams.get(k)` produced a falsy value (`!x`):
absent parameter (`null`) or empty string. -/
def strFalsy : Option String → Bool
  | some s => s = ""
  | none => true

/-- An exception value (`Error`): its `message` and `stack`. -/
structure JsError where
  message : String
  stack : String
deriving DecidableEq

/-- A stored blob as returned by the store's `put` and `list` primitives. -/
structure Blob where
  url : String
  downloadUrl : String
  pathname : String
  size : Nat
  uploadedAt : String

/-- Content passed to `put`: the raw request stream (upload route),
`JSON.stringify` of a value, or decoded bytes. -/
inductive PutContent where
  | stream
  | jsonText (v : Json)
  | bytes (bs : List Nat)

/-- The options object passed to `put`. -/
structure PutOptions where
  access : String
  contentType : Option String := none
  addRandomSuffix : Bool := false

/-- The external store calls the handler can make; `limit` is `none` when
`parseInt` produced `NaN`. -/
inductive Effect where
  | put (pathname : String) (content : PutContent) (opts : PutOptions)
  | list (pfx : String) (limit : Option Int)
  | del (url : String)
  | fetch (url : String)

/-- The external object-storage collaborator plus the plain network fetch
used to resolve stored JSON documents.  `fetchJson` returns `none` for any
fetch or JSON-parse failure (those sites wrap the calls in `try`). -/
structure BlobStore where
  put : String → PutContent → PutOptions → Except JsError Blob
  listBlobs : String → Option Int → Except JsError (List Blob)
  del : String → Except JsError Unit
  fetchJson : String → Option Json

/-- Ambient environment: `Date.now()` (modelled as constant within one
request), `new Date().toISOString()`, and `process.env.NODE_ENV`. -/
structure Env where
  now : Nat
  nowISO : String
  nodeEnv : String

/-- An inbound request: HTTP method, the query parameters the source reads
(`searchParams.get` gives `none` when absent), and the outcome of
`request.json()` (`.error` models a body whose JSON parse throws). -/
structure Request where
  method : String
  action : Option String
  filename : Option String
  urlParam : Option String
  prefixParam : Option String
  limitParam : Option String
  jsonBody : Except JsError Json

/-- A produced response: status, headers, and body (`none` is the `null`
body of the preflight response, otherwise the serialized JSON value). -/
structure Response where
  status : Nat
  headers : List (String × String)
  body : Option Json

/-- The `corsHeaders` object built at the top of the handler. -/
def corsHeaders : List (String × String) :=
  [("Access-Control-Allow-Origin", "*"),
   ("Access-Control-Allow-Methods", "GET, POST, DELETE, OPTIONS"),
   ("Access-Control-Allow-Headers", "Content-Type"),
   ("Content-Type", "application/json")]

/-- The `jsonResponse(data, status, headers)` helper. -/
def jsonResponse (data : Json) (status : Nat) (headers : List (String × String)) : Response :=
  { status := status, headers := headers, body := some data }

/-- The `{success:false, error:msg}` failure envelope. -/
def errEnvelope (msg : String) : Json :=
  .obj [("success", .bool false), ("error", .str msg)]

/-- A handler computation: threads the trace of store calls and may throw. -/
def HandlerM (α : Type) : Type :=
  List Effect → Except JsError α × List Effect

/-- Sanitization of a filter name: `name.replace(/[^a-zA-Z0-9-_]/g, '_')`. -/
def isSafeNameChar (c : Char) : Bool :=
  ('a' ≤ c && c ≤ 'z') || ('A' ≤ c && c ≤ 'Z') || ('0' ≤ c && c ≤ '9') || c = '-' || c = '_'

/-- Replace every character outside `[a-zA-Z0-9-_]` with an underscore
(`replace` with a global character-class regex acts per character). -/
def sanitizeName (s : String) : String :=
  String.mk (s.data.map (fun c => if isSafeNameChar c then c else '_'))

/-- Whether `pat` is a prefix of `cs` (the characters of `s.startsWith`). -/
def isPrefixList : List Char → List Char → Bool
  | [], _ => true
  | _ :: _, [] => false
  | p :: ps, c :: cs => p = c && isPrefixList ps cs

/-- The characters of `pathname.split('/').pop()`: everything after the
last slash (possibly empty). -/
def lastSegList : List Char → List Char → List Char
  | [], acc => acc.reverse
  | c :: rest, acc => if c = '/' then lastSegList rest [] else lastSegList rest (c :: acc)

/-- Models `pathname.split('/').pop()` (split never yields an empty array,
so `pop` is the final segment). -/
def lastSegment (s : String) : String :=
  String.mk (lastSegList s.data [])

/-- A `\w` regex character: `[A-Za-z0-9_]`. -/
def isWordChar (c : Char) : Bool :=
  ('a' ≤ c && c ≤ 'z') || ('A' ≤ c && c ≤ 'Z') || ('0' ≤ c && c ≤ '9') || c = '_'

/-- A character the regex `.` does not match (no `s` flag): line terminators. -/
def isRegexNewline (c : Char) : Bool :=
  c = '\n' || c = '\r' || c.val = 0x2028 || c.val = 0x2029

/-- Models `image.match(/^data:image\x5c/\x5cw+;base64,(.+)$/)`: `some` of the
captured base64 payload when the whole string is `data:image/` followed by a
nonempty run of word characters, `;base64,`, and a nonempty payload free of
line terminators; `none` otherwise. -/
def dataUrlMatch (s : String) : Option String :=
  let cs := s.data
  if isPrefixList "data:image/".data cs then
    let rest := cs.drop 11
    let ty := rest.takeWhile isWordChar
    let rest2 := rest.drop ty.length
    if ty.length = 0 then none
    else if isPrefixList ";base64,".data rest2 then
      let payload := rest2.drop 8
      if payload.length > 0 && payload.all (fun c => !(isRegexNewline c)) then
        some (String.mk payload)
      else none
    else none
  else none

/-- The base64 alphabet value of a character, `none` outside the alphabet. -/
def b64Index (c : Char) : Option Nat :=
  if 'A' ≤ c && c ≤ 'Z' then some (c.toNat - 65)
  else if 'a' ≤ c && c ≤ 'z' then some (c.toNat - 97 + 26)
  else if '0' ≤ c && c ≤ '9' then some (c.toNat - 48 + 52)
  else if c = '+' then some 62
  else if c = '/' then some 63
  else none

/-- Reassemble the 6-bit groups of a base64 string into bytes; a trailing
group of one sextet is an encoding error. -/
def decodeSextets : List Nat → Option (List Nat)
  | [] => some []
  | [_] => none
  | [a, b] => some [a * 4 + b / 16]
  | [a, b, c] => some [a * 4 + b / 16, (b % 16) * 16 + c / 4]
  | a :: b :: c :: d :: rest =>
    match decodeSextets rest with
    | some tail => some ([a * 4 + b / 16, (b % 16) * 16 + c / 4, (c % 4) * 64 + d] ++ tail)
    | none => none

/-- ASCII whitespace stripped by `atob` before decoding. -/
def isAsciiWhitespace (c : Char) : Bool :=
  c = ' ' || c = '\t' || c = '\n' || c.val = 12 || c = '\r'

/-- Remove up to two trailing padding characters. -/
def stripPad (cs : List Char) : List Char :=
  match cs.reverse with
  | '=' :: '=' :: rest => rest.reverse
  | '=' :: rest => rest.reverse
  | _ => cs

/-- Models `atob` (forgiving-base64 decode): strip ASCII whitespace, strip up
to two `=` when the length is a multiple of four, reject any character
outside the alphabet and any leftover single sextet; `some` of the decoded
byte values (0–255, the `charCodeAt` of each decoded character) otherwise. -/
def atob (s : String) : Option (List Nat) :=
  let cs := s.data.filter (fun c => !(isAsciiWhitespace c))
  let cs := if cs.length % 4 = 0 then stripPad cs else cs
  match cs.mapM b64Index with
  | some sextets => decodeSextets sextets
  | none => none

/-- Models `parseInt(s)` in base 10: skip leading whitespace, optional sign,
then a nonempty run of digits; `none` for `NaN`. -/
def parseIntJS (s : String) : Option Int :=
  let cs := s.data.dropWhile (fun c => c.isWhitespace)
  let sign : Int := if cs.take 1 = ['-'] then -1 else 1
  let cs := if cs.take 1 = ['-'] || cs.take 1 = ['+'] then cs.drop 1 else cs
  let ds := cs.takeWhile (fun c => c.isDigit)
  if ds = [] then none
  else some (sign * (ds.foldl (fun a c => a * 10 + (c.toNat - 48)) 0 : Nat))

/-- Fields contributed by the object spread `{...v}`: an object's own
fields, the indexed characters of a string, the indexed elements of an
array, nothing for the other primitives (and `{...null}` is `{}`). -/
def jsSpreadFields : Json → List (String × Json)
  | .obj fields => fields
  | .arr xs => xs.enum.map (fun ic => (toString ic.fst, ic.snd))
  | .str s => s.data.enum.map (fun ic => (toString ic.fst, Json.str ic.snd.toString))
  | _ => []

/-- Setting a key in an object literal after a spread: overrides an existing
key in place, otherwise appends. -/
def putField (fields : List (String × Json)) (k : String) (v : Json) : List (String × Json) :=
  if (fields.lookup k).isSome then
    fields.map (fun kv => if kv.fst = k then (k, v) else kv)
  else fields ++ [(k, v)]

/-- The `{...metadata, imageUrl: blob.url, timestamp: ...toISOString()}`
document written next to an enhanced image. -/
def metadataDoc (m : Json) (imageUrl : String) (ts : String) : Json :=
  .obj (putField (putField (jsSpreadFields m) "imageUrl" (.str imageUrl)) "timestamp" (.str ts))

/-- Route 1 (`upload`): POST only; stores the raw body under
`uploads/<filename>` with a random suffix. -/
def uploadRoute (env : Env) (store : BlobStore) (req : Request) : HandlerM Response :=
  fun fx =>
    if req.method ≠ "POST" then
      (.ok (jsonResponse (errEnvelope "Method not allowed") 405 corsHeaders), fx)
    else
      let filename := strOr req.filename ("upload_" ++ toString env.now ++ ".jpg")
      let fx := fx ++ [Effect.put ("uploads/" ++ filename) .stream
        { access := "public", addRandomSuffix := true }]
      match store.put ("uploads/" ++ filename) .stream
          { access := "public", addRandomSuffix := true } with
      | .ok blob =>
        (.ok (jsonResponse (.obj
          [("success", .bool true), ("url", .str blob.url),
           ("downloadUrl", .str blob.downloadUrl), ("size", .num (blob.size : Int)),
           ("uploadedAt", .str env.nowISO)]) 200 corsHeaders), fx)
      | .error e => (.error e, fx)

/-- Resolution of one listed CC filter (the body of the `blobs.map` callback
on the cc GET route): `none` when the fetch/parse fails or the document is
JSON `null` (reading `.name` of `null` throws inside the `try`), otherwise
the filter object with `name` and `values` fallbacks. -/
def resolveFilter (store : BlobStore) (blob : Blob) : Option Json :=
  match store.fetchJson blob.url with
  | none => none
  | some data =>
    match data with
    | .null => none
    | _ =>
      some (.obj
        [("name", truthyOr (getField data "name") (.str (lastSegment blob.pathname))),
         ("url", .str blob.url),
         ("uploadedAt", .str blob.uploadedAt),
         ("size", .num (blob.size : Int)),
         ("values", truthyOr (getField data "values") data)])

/-- The fetch calls issued by `Promise.all` over the listed blobs (the model
serializes them in list order). -/
def fetchEffects (blobs : List Blob) : List Effect :=
  blobs.map (fun b => Effect.fetch b.url)

/-- Route 2 GET (`cc`): list up to 100 `cc-filters/` blobs, resolve each,
keep the non-null results (`filters.filter(f => f !== null)`). -/
def ccGetRoute (store : BlobStore) : HandlerM Response :=
  fun fx =>
    match store.listBlobs "cc-filters/" (some 100) with
    | .error e => (.error e, fx ++ [Effect.list "cc-filters/" (some 100)])
    | .ok blobs =>
      let kept := (blobs.map (resolveFilter store)).filterMap id
      (.ok (jsonResponse (.obj
        [("success", .bool true), ("filters", .arr kept),
         ("count", .num (kept.length : Int))]) 200 corsHeaders),
       fx ++ [Effect.list "cc-filters/" (some 100)] ++ fetchEffects blobs)

/-- Route 2 POST (`cc`): validate `name`/`values` by truthiness, then store
`JSON.stringify(ccData)` under `cc-filters/<safeName>_<timestamp>.json`.
Reading a property of a `null` body throws; `.replace` on a truthy
non-string name throws. -/
def ccPostRoute (env : Env) (store : BlobStore) (req : Request) : HandlerM Response :=
  fun fx =>
    match req.jsonBody with
    | .error e => (.error e, fx)
    | .ok ccData =>
      match ccData with
      | .null => (.error { message := "Cannot read properties of null", stack := "TypeError" }, fx)
      | _ =>
        if !(truthyO (getField ccData "name")) || !(truthyO (getField ccData "values")) then
          (.ok (jsonResponse (errEnvelope "Missing name or values") 400 corsHeaders), fx)
        else
          match getField ccData "name" with
          | some (.str name) =>
            let filename := "cc-filters/" ++ sanitizeName name ++ "_" ++ toString env.now ++ ".json"
            let fx := fx ++ [Effect.put filename (.jsonText ccData)
              { access := "public", contentType := some "application/json" }]
            match store.put filename (.jsonText ccData)
                { access := "public", contentType := some "application/json" } with
            | .ok blob =>
              (.ok (jsonResponse (.obj
                [("success", .bool true), ("url", .str blob.url),
                 ("name", .str name), ("uploadedAt", .str env.nowISO)]) 200 corsHeaders), fx)
            | .error e => (.error e, fx)
          | _ => (.error { message := "ccData.name.replace is not a function", stack := "TypeError" }, fx)

/-- Route 2 DELETE (`cc`): require a truthy `url` query parameter, delete. -/
def ccDeleteRoute (store : BlobStore) (req : Request) : HandlerM Response :=
  fun fx =>
    if strFalsy req.urlParam then
      (.ok (jsonResponse (errEnvelope "URL parameter required") 400 corsHeaders), fx)
    else
      let u := (req.urlParam).getD ""
      match store.del u with
      | .ok _ =>
        (.ok (jsonResponse (.obj
          [("success", .bool true), ("message", .str "CC filter deleted successfully")]) 200 corsHeaders),
         fx ++ [Effect.del u])
      | .error e => (.error e, fx ++ [Effect.del u])

/-- The success envelope of the save-enhanced route. -/
def enhancedOkResponse (blob : Blob) : Response :=
  jsonResponse (.obj
    [("success", .bool true), ("url", .str blob.url),
     ("downloadUrl", .str blob.downloadUrl),
     ("size", .num (blob.size : Int))]) 200 corsHeaders

/-- The optional metadata side write of the save-enhanced route
(`if (metadata) { await put(...) }`): performed only when `metadata` is
truthy; a rejection propagates out of the route like any other `await`. -/
def saveMetadataPut (env : Env) (store : BlobStore) (metadata : Option Json)
    (blob : Blob) : HandlerM Unit :=
  fun fx =>
    match metadata with
    | some m =>
      if truthy m then
        let metadataFilename := "metadata/meta_" ++ toString env.now ++ ".json"
        let fx := fx ++ [Effect.put metadataFilename
          (.jsonText (metadataDoc m blob.url env.nowISO))
          { access := "public", contentType := some "application/json" }]
        match store.put metadataFilename
            (.jsonText (metadataDoc m blob.url env.nowISO))
            { access := "public", contentType := some "application/json" } with
        | .error e => (.error e, fx)
        | .ok _ => (.ok (), fx)
      else (.ok (), fx)
    | none => (.ok (), fx)

/-- The write phase of the save-enhanced route, after the image has been
validated and decoded to `bytes`: store the image, run the optional
metadata side write, answer with the image blob's data. -/
def saveEnhancedWrite (env : Env) (store : BlobStore) (metadata : Option Json)
    (bytes : List Nat) : HandlerM Response :=
  fun fx =>
    let filename := "enhanced/enhanced_" ++ toString env.now ++ ".jpg"
    let fx := fx ++ [Effect.put filename (.bytes bytes)
      { access := "public", contentType := some "image/jpeg" }]
    match store.put filename (.bytes bytes)
        { access := "public", contentType := some "image/jpeg" } with
    | .error e => (.error e, fx)
    | .ok blob =>
      match saveMetadataPut env store metadata blob fx with
      | (.error e, fx) => (.error e, fx)
      | (.ok _, fx) => (.ok (enhancedOkResponse blob), fx)

/-- Route 3 (`save-enhanced`): POST only; validate and decode the data-URL
image, then store it (and, when `metadata` is truthy, the side document). -/
def saveEnhancedRoute (env : Env) (store : BlobStore) (req : Request) : HandlerM Response :=
  fun fx =>
    if req.method ≠ "POST" then
      (.ok (jsonResponse (errEnvelope "Method not allowed") 405 corsHeaders), fx)
    else
      match req.jsonBody with
      | .error e => (.error e, fx)
      | .ok body =>
        match body with
        | .null => (.error { message := "Cannot destructure properties of null", stack := "TypeError" }, fx)
        | _ =>
          if !(truthyO (getField body "image")) then
            (.ok (jsonResponse (errEnvelope "No image provided") 400 corsHeaders), fx)
          else
            match getField body "image" with
            | some (.str imageStr) =>
              match dataUrlMatch imageStr with
              | none => (.ok (jsonResponse (errEnvelope "Invalid image format") 400 corsHeaders), fx)
              | some base64Data =>
                match atob base64Data with
                | none => (.error { message := "The string to be decoded is not correctly encoded", stack := "InvalidCharacterError" }, fx)
                | some bytes => saveEnhancedWrite env store (getField body "metadata") bytes fx
            | _ => (.error { message := "image.match is not a function", stack := "TypeError" }, fx)

/-- Route 4 (`list-uploads`): GET only; list under `prefix` (default
`uploads/`) with `parseInt` limit (default `'50'`), map to summaries. -/
def listUploadsRoute (store : BlobStore) (req : Request) : HandlerM Response :=
  fun fx =>
    if req.method ≠ "GET" then
      (.ok (jsonResponse (errEnvelope "Method not allowed") 405 corsHeaders), fx)
    else
      let pfx := strOr req.prefixParam "uploads/"
      let limit := parseIntJS (strOr req.limitParam "50")
      match store.listBlobs pfx limit with
      | .error e => (.error e, fx ++ [Effect.list pfx limit])
      | .ok blobs =>
        (.ok (jsonResponse (.obj
          [("success", .bool true),
           ("uploads", .arr (blobs.map (fun b => .obj
             [("url", .str b.url), ("downloadUrl", .str b.downloadUrl),
              ("pathname", .str b.pathname), ("size", .num (b.size : Int)),
              ("uploadedAt", .str b.uploadedAt)]))),
           ("count", .num (blobs.length : Int))]) 200 corsHeaders),
         fx ++ [Effect.list pfx limit])

/-- Route 5 (`delete-upload`): DELETE only; require a truthy `url`, delete. -/
def deleteUploadRoute (store : BlobStore) (req : Request) : HandlerM Response :=
  fun fx =>
    if req.method ≠ "DELETE" then
      (.ok (jsonResponse (errEnvelope "Method not allowed") 405 corsHeaders), fx)
    else
      if strFalsy req.urlParam then
        (.ok (jsonResponse (errEnvelope "URL parameter required") 400 corsHeaders), fx)
      else
        let u := (req.urlParam).getD ""
        match store.del u with
        | .ok _ =>
          (.ok (jsonResponse (.obj
            [("success", .bool true), ("message", .str "Upload deleted successfully")]) 200 corsHeaders),
           fx ++ [Effect.del u])
        | .error e => (.error e, fx ++ [Effect.del u])

/-- Resolution of one listed metadata document (route 6's map callback):
`{...data, metadataUrl, uploadedAt}` — the spread never throws, so only a
fetch/parse failure drops the item. -/
def resolveMetadata (store : BlobStore) (blob : Blob) : Option Json :=
  match store.fetchJson blob.url with
  | none => none
  | some data =>
    some (.obj (putField (putField (jsSpreadFields data) "metadataUrl" (.str blob.url))
      "uploadedAt" (.str blob.uploadedAt)))

/-- Route 6 (`get-metadata`): GET only; list up to 100 `metadata/` blobs,
resolve each, keep the non-null results. -/
def getMetadataRoute (store : BlobStore) (req : Request) : HandlerM Response :=
  fun fx =>
    if req.method ≠ "GET" then
      (.ok (jsonResponse (errEnvelope "Method not allowed") 405 corsHeaders), fx)
    else
      match store.listBlobs "metadata/" (some 100) with
      | .error e => (.error e, fx ++ [Effect.list "metadata/" (some 100)])
      | .ok blobs =>
        let kept := (blobs.map (resolveMetadata store)).filterMap id
        (.ok (jsonResponse (.obj
          [("success", .bool true), ("metadata", .arr kept),
           ("count", .num (kept.length : Int))]) 200 corsHeaders),
         fx ++ [Effect.list "metadata/" (some 100)] ++ fetchEffects blobs)

/-- The capability list of the health route (first literal in the source). -/
def healthActions : List String :=
  ["upload", "cc", "save-enhanced", "list-uploads", "delete-upload", "get-metadata", "health"]

/-- The capability list of the 404 fallback (second literal in the source). -/
def fallbackActions : List String :=
  ["upload", "cc", "save-enhanced", "list-uploads", "delete-upload", "get-metadata", "health"]

/-- The body of the health response. -/
def healthBody (env : Env) : Json :=
  .obj [("success", .bool true), ("status", .str "healthy"),
        ("timestamp", .str env.nowISO),
        ("availableActions", .arr (healthActions.map Json.str))]

/-- Route 7 (`health`): no method enforcement; static descriptor. -/
def healthRoute (env : Env) : HandlerM Response :=
  fun fx =>
    (.ok (jsonResponse (healthBody env) 200 corsHeaders), fx)

/-- The body of the 404 fallback response. -/
def invalidActionBody : Json :=
  .obj [("success", .bool false), ("error", .str "Invalid action"),
        ("availableActions", .arr (fallbackActions.map Json.str))]

/-- The `try` block's if-chain over `action`.  The source's `cc` block
returns only for GET/POST/DELETE; any other method falls out of the block
and continues down the chain to the 404 fallback, which the flattened
conditions reproduce. -/
def dispatch (env : Env) (store : BlobStore) (action : String) (req : Request) : HandlerM Response :=
  if action = "upload" then uploadRoute env store req
  else if action = "cc" && req.method = "GET" then ccGetRoute store
  else if action = "cc" && req.method = "POST" then ccPostRoute env store req
  else if action = "cc" && req.method = "DELETE" then ccDeleteRoute store req
  else if action = "save-enhanced" then saveEnhancedRoute env store req
  else if action = "list-uploads" then listUploadsRoute store req
  else if action = "delete-upload" then deleteUploadRoute store req
  else if action = "get-metadata" then getMetadataRoute store req
  else if action = "health" then healthRoute env
  else fun fx =>
    (.ok (jsonResponse invalidActionBody 404 corsHeaders), fx)

/-- The catch block's body: `error.message || 'Internal server error'`, and
a `stack` field only when `NODE_ENV === 'development'` (a field set to
`undefined` is dropped by `JSON.stringify`). -/
def errorBody (env : Env) (e : JsError) : Json :=
  .obj ([("success", .bool false),
         ("error", .str (if e.message = "" then "Internal server error" else e.message))] ++
        (if env.nodeEnv = "development" then [("stack", .str e.stack)] else []))

/-- The exported handler: `OPTIONS` short-circuits before the `try`; the
action defaults to `"unknown"`; a thrown error is answered with status 500.
The result pairs the response with the trace of store calls performed. -/
def handler (env : Env) (store : BlobStore) (req : Request) : Response × List Effect :=
  if req.method = "OPTIONS" then
    ({ status := 200, headers := corsHeaders, body := none }, [])
  else
    match dispatch env store (strOr req.action "unknown") req [] with
    | (.ok r, fx) => (r, fx)
    | (.error e, fx) => (jsonResponse (errorBody env e) 500 corsHeaders, fx)

/-! Concrete fixtures used to instantiate the theorems below. -/

/-- A production environment with a fixed clock. -/
def envProd : Env := { now := 1712345, nowISO := "2026-10-12T00:00:00.000Z", nodeEnv := "production" }

/-- The same environment with `NODE_ENV=development`. -/
def envDev : Env := { now := 1712345, nowISO := "2026-10-12T00:00:00.000Z", nodeEnv := "development" }

/-- The same environment with a non-production, non-development `NODE_ENV`. -/
def envTest : Env := { now := 1712345, nowISO := "2026-10-12T00:00:00.000Z", nodeEnv := "test" }

/-- A store whose every operation succeeds and that lists nothing. -/
def storeOk : BlobStore :=
  { put := fun p _ _ =>
      .ok { url := "https://blob.test/" ++ p, downloadUrl := "https://blob.test/" ++ p ++ "?download=1",
            pathname := p, size := 3, uploadedAt := "2026-10-12" },
    listBlobs := fun _ _ => .ok [],
    del := fun _ => .ok (),
    fetchJson := fun _ => none }

/-- First listed CC filter: its document is fetchable. -/
def blobA : Blob :=
  { url := "https://blob.test/cc-filters/a.json", downloadUrl := "https://blob.test/cc-filters/a.json?download=1",
    pathname := "cc-filters/a.json", size := 10, uploadedAt := "2026-10-01" }

/-- Second listed CC filter: its document is unfetchable. -/
def blobB : Blob :=
  { url := "https://blob.test/cc-filters/b.json", downloadUrl := "https://blob.test/cc-filters/b.json?download=1",
    pathname := "cc-filters/b.json", size := 11, uploadedAt := "2026-10-02" }

/-- A store listing two CC filters of which only the first is fetchable. -/
def storeTwoFilters : BlobStore :=
  { put := fun p _ _ =>
      .ok { url := "https://blob.test/" ++ p, downloadUrl := "https://blob.test/" ++ p ++ "?download=1",
            pathname := p, size := 3, uploadedAt := "2026-10-12" },
    listBlobs := fun _ _ => .ok [blobA, blobB],
    del := fun _ => .ok (),
    fetchJson := fun u =>
      if u = "https://blob.test/cc-filters/a.json" then
        some (.obj [("name", .str "Warm"), ("values", .obj [("contrast", .num 2)])])
      else none }

/-- The rejection produced by the metadata store of `storeMetaFails`. -/
def errMeta : JsError :=
  { message := "metadata store unavailable", stack := "Error: metadata store unavailable" }

/-- The blob `storeOk` and `storeMetaFails` return for the stored enhanced
image of the save-enhanced witnesses. -/
def blobEnhanced : Blob :=
  { url := "https://blob.test/enhanced/enhanced_1712345.jpg"
    downloadUrl := "https://blob.test/enhanced/enhanced_1712345.jpg?download=1"
    pathname := "enhanced/enhanced_1712345.jpg"
    size := 3
    uploadedAt := "2026-10-12" }

/-- A store where the primary `enhanced/` write succeeds and every other
write (in particular the `metadata/` side write) fails. -/
def storeMetaFails : BlobStore :=
  { put := fun p _ _ =>
      if isPrefixList "enhanced/".data p.data then
        .ok { url := "https://blob.test/" ++ p, downloadUrl := "https://blob.test/" ++ p ++ "?download=1",
              pathname := p, size := 3, uploadedAt := "2026-10-12" }
      else .error errMeta,
    listBlobs := fun _ _ => .ok [],
    del := fun _ => .ok (),
    fetchJson := fun _ => none }

/-- A request template: GET with no parameters and an empty-object body. -/
def baseReq : Request :=
  { method := "GET", action := none, filename := none, urlParam := none,
    prefixParam := none, limitParam := none, jsonBody := .ok (.obj []) }

/-- A JSON-parse failure raised by `request.json()`. -/
def errParse : JsError :=
  { message := "Unexpected token", stack := "SyntaxError: Unexpected token" }

/-- An exception whose message is the empty string. -/
def errEmptyMsg : JsError := { message := "", stack := "Error: stack frames" }

/-- A `cc` POST whose body fails to parse as JSON. -/
def reqCcPostBadJson : Request :=
  { baseReq with method := "POST", action := some "cc", jsonBody := .error errParse }

/-- A `cc` POST whose body fails to parse, with an empty-message error. -/
def reqCcPostEmptyMsg : Request :=
  { baseReq with method := "POST", action := some "cc", jsonBody := .error errEmptyMsg }

/-- A `cc` POST whose body has an empty-string `name` and truthy `values`. -/
def reqCcPostEmptyName : Request :=
  { baseReq with
    method := "POST"
    action := some "cc"
    jsonBody := .ok (.obj [("name", .str ""), ("values", .obj [("a", .num 1)])]) }

/-- A `cc` POST whose body has a truthy `name` and `values: 0`. -/
def reqCcPostZeroValues : Request :=
  { baseReq with
    method := "POST"
    action := some "cc"
    jsonBody := .ok (.obj [("name", .str "x"), ("values", .num 0)]) }

/-- A `cc` POST with body `{"name":"My Filter!","values":{"a":1}}`. -/
def reqCcPostMyFilter : Request :=
  { baseReq with
    method := "POST"
    action := some "cc"
    jsonBody := .ok (.obj [("name", .str "My Filter!"), ("values", .obj [("a", .num 1)])]) }

/-- A `cc` POST with an empty-object body. -/
def reqCcPostEmptyBody : Request :=
  { baseReq with method := "POST", action := some "cc", jsonBody := .ok (.obj []) }

/-- A `cc` GET request. -/
def reqCcGet : Request := { baseReq with method := "GET", action := some "cc" }

/-- A save-enhanced POST with a valid image and no metadata. -/
def reqSaveNoMeta : Request :=
  { baseReq with
    method := "POST"
    action := some "save-enhanced"
    jsonBody := .ok (.obj [("image", .str "data:image/png;base64,AAAA")]) }

/-- A save-enhanced POST with a valid image and a metadata object. -/
def reqSaveWithMeta : Request :=
  { baseReq with
    method := "POST"
    action := some "save-enhanced"
    jsonBody := .ok (.obj [("image", .str "data:image/png;base64,AAAA"),
                           ("metadata", .obj [("label", .str "sunset")])]) }

/-- The blob `storeOk` returns for the stored "My Filter!" document. -/
def blobMyFilter : Blob :=
  { url := "https://blob.test/cc-filters/My_Filter__1712345.json"
    downloadUrl := "https://blob.test/cc-filters/My_Filter__1712345.json?download=1"
    pathname := "cc-filters/My_Filter__1712345.json"
    size := 3
    uploadedAt := "2026-10-12" }

/-! Helper lemmas: every response the dispatch chain can return normally
carries `corsHeaders`, and so does every response of the handler. -/

theorem uploadRoute_ok_headers {env : Env} {store : BlobStore} {req : Request}
    {fx fx' : List Effect} {r : Response}
    (h : uploadRoute env store req fx = (.ok r, fx')) : r.headers = corsHeaders := by
  unfold uploadRoute at h
  repeat' ((try simp only [] at h); split at h)
  all_goals simp only [Prod.mk.injEq, Except.ok.injEq] at h
  all_goals obtain ⟨h1, -⟩ := h
  all_goals first
    | exact Except.noConfusion h1
    | (subst h1; rfl)

theorem ccGetRoute_ok_headers {store : BlobStore} {fx fx' : List Effect} {r : Response}
    (h : ccGetRoute store fx = (.ok r, fx')) : r.headers = corsHeaders := by
  unfold ccGetRoute at h
  repeat' ((try simp only [] at h); split at h)
  all_goals simp only [Prod.mk.injEq, Except.ok.injEq] at h
  all_goals obtain ⟨h1, -⟩ := h
  all_goals first
    | exact Except.noConfusion h1
    | (subst h1; rfl)

theorem ccPostRoute_ok_headers {env : Env} {store : BlobStore} {req : Request}
    {fx fx' : List Effect} {r : Response}
    (h : ccPostRoute env store req fx = (.ok r, fx')) : r.headers = corsHeaders := by
  unfold ccPostRoute at h
  repeat' ((try simp only [] at h); split at h)
  all_goals simp only [Prod.mk.injEq, Except.ok.injEq] at h
  all_goals obtain ⟨h1, -⟩ := h
  all_goals first
    | exact Except.noConfusion h1
    | (subst h1; rfl)

theorem ccDeleteRoute_ok_headers {store : BlobStore} {req : Request}
    {fx fx' : List Effect} {r : Response}
    (h : ccDeleteRoute store req fx = (.ok r, fx')) : r.headers = corsHeaders := by
  unfold ccDeleteRoute at h
  repeat' ((try simp only [] at h); split at h)
  all_goals simp only [Prod.mk.injEq, Except.ok.injEq] at h
  all_goals obtain ⟨h1, -⟩ := h
  all_goals first
    | exact Except.noConfusion h1
    | (subst h1; rfl)

theorem saveEnhancedWrite_ok_headers {env : Env} {store : BlobStore} {metadata : Option Json}
    {bytes : List Nat} {fx fx' : List Effect} {r : Response}
    (h : saveEnhancedWrite env store metadata bytes fx = (.ok r, fx')) : r.headers = corsHeaders := by
  unfold saveEnhancedWrite at h
  repeat' ((try simp only [] at h); split at h)
  all_goals simp only [Prod.mk.injEq, Except.ok.injEq] at h
  all_goals obtain ⟨h1, -⟩ := h
  all_goals first
    | exact Except.noConfusion h1
    | (subst h1; rfl)

theorem saveEnhancedRoute_ok_headers {env : Env} {store : BlobStore} {req : Request}
    {fx fx' : List Effect} {r : Response}
    (h : saveEnhancedRoute env store req fx = (.ok r, fx')) : r.headers = corsHeaders := by
  unfold saveEnhancedRoute at h
  split at h
  case isTrue =>
    simp only [Prod.mk.injEq, Except.ok.injEq] at h
    obtain ⟨h1, -⟩ := h
    subst h1
    rfl
  case isFalse =>
    split at h
    case h_1 =>
      simp only [Prod.mk.injEq] at h
      obtain ⟨h1, -⟩ := h
      exact Except.noConfusion h1
    case h_2 body heq =>
      split at h
      case h_1 =>
        simp only [Prod.mk.injEq] at h
        obtain ⟨h1, -⟩ := h
        exact Except.noConfusion h1
      case h_2 =>
        split at h
        case isTrue =>
          simp only [Prod.mk.injEq, Except.ok.injEq] at h
          obtain ⟨h1, -⟩ := h
          subst h1
          rfl
        case isFalse =>
          rcases hImg : getField body "image" with _ | imageVal
          · rw [hImg] at h
            simp only [Prod.mk.injEq] at h
            obtain ⟨h1, -⟩ := h
            exact Except.noConfusion h1
          · rw [hImg] at h
            cases imageVal with
            | str imageStr =>
              dsimp only [] at h
              rcases hM : dataUrlMatch imageStr with _ | base64Data
              · rw [hM] at h
                simp only [Prod.mk.injEq, Except.ok.injEq] at h
                obtain ⟨h1, -⟩ := h
                subst h1
                rfl
              · rw [hM] at h
                dsimp only [] at h
                rcases hA : atob base64Data with _ | bytes
                · rw [hA] at h
                  simp only [Prod.mk.injEq] at h
                  obtain ⟨h1, -⟩ := h
                  exact Except.noConfusion h1
                · rw [hA] at h
                  dsimp only [] at h
                  exact saveEnhancedWrite_ok_headers h
            | null =>
              dsimp only [] at h
              simp only [Prod.mk.injEq] at h
              obtain ⟨h1, -⟩ := h
              exact Except.noConfusion h1
            | bool b =>
              dsimp only [] at h
              simp only [Prod.mk.injEq] at h
              obtain ⟨h1, -⟩ := h
              exact Except.noConfusion h1
            | num n =>
              dsimp only [] at h
              simp only [Prod.mk.injEq] at h
              obtain ⟨h1, -⟩ := h
              exact Except.noConfusion h1
            | arr xs =>
              dsimp only [] at h
              simp only [Prod.mk.injEq] at h
              obtain ⟨h1, -⟩ := h
              exact Except.noConfusion h1
            | obj fs =>
              dsimp only [] at h
              simp only [Prod.mk.injEq] at h
              obtain ⟨h1, -⟩ := h
              exact Except.noConfusion h1

theorem listUploadsRoute_ok_headers {store : BlobStore} {req : Request}
    {fx fx' : List Effect} {r : Response}
    (h : listUploadsRoute store req fx = (.ok r, fx')) : r.headers = corsHeaders := by
  unfold listUploadsRoute at h
  repeat' ((try simp only [] at h); split at h)
  all_goals simp only [Prod.mk.injEq, Except.ok.injEq] at h
  all_goals obtain ⟨h1, -⟩ := h
  all_goals first
    | exact Except.noConfusion h1
    | (subst h1; rfl)

theorem deleteUploadRoute_ok_headers {store : BlobStore} {req : Request}
    {fx fx' : List Effect} {r : Response}
    (h : deleteUploadRoute store req fx = (.ok r, fx')) : r.headers = corsHeaders := by
  unfold deleteUploadRoute at h
  repeat' ((try simp only [] at h); split at h)
  all_goals simp only [Prod.mk.injEq, Except.ok.injEq] at h
  all_goals obtain ⟨h1, -⟩ := h
  all_goals first
    | exact Except.noConfusion h1
    | (subst h1; rfl)

theorem getMetadataRoute_ok_headers {store : BlobStore} {req : Request}
    {fx fx' : List Effect} {r : Response}
    (h : getMetadataRoute store req fx = (.ok r, fx')) : r.headers = corsHeaders := by
  unfold getMetadataRoute at h
  repeat' ((try simp only [] at h); split at h)
  all_goals simp only [Prod.mk.injEq, Except.ok.injEq] at h
  all_goals obtain ⟨h1, -⟩ := h
  all_goals first
    | exact Except.noConfusion h1
    | (subst h1; rfl)

theorem healthRoute_ok_headers {env : Env} {fx fx' : List Effect} {r : Response}
    (h : healthRoute env fx = (.ok r, fx')) : r.headers = corsHeaders := by
  unfold healthRoute at h
  simp only [Prod.mk.injEq, Except.ok.injEq] at h
  obtain ⟨h1, -⟩ := h
  subst h1
  rfl

theorem dispatch_ok_headers {env : Env} {store : BlobStore} {a : String} {req : Request}
    {fx fx' : List Effect} {r : Response}
    (h : dispatch env store a req fx = (.ok r, fx')) : r.headers = corsHeaders := by
  unfold dispatch at h
  repeat' split at h
  · exact uploadRoute_ok_headers h
  · exact ccGetRoute_ok_headers h
  · exact ccPostRoute_ok_headers h
  · exact ccDeleteRoute_ok_headers h
  · exact saveEnhancedRoute_ok_headers h
  · exact listUploadsRoute_ok_headers h
  · exact deleteUploadRoute_ok_headers h
  · exact getMetadataRoute_ok_headers h
  · exact healthRoute_ok_headers h
  · simp only [Prod.mk.injEq, Except.ok.injEq] at h
    obtain ⟨h1, -⟩ := h
    subst h1
    rfl

theorem handler_headers (env : Env) (store : BlobStore) (req : Request) :
    (handler env store req).fst.headers = corsHeaders := by
  unfold handler
  split
  · rfl
  · split
    · next r fx heq => exact dispatch_ok_headers heq
    · rfl

/-! Reduction lemmas for the dispatch chain and the handler wrapper. -/

theorem handler_of_ok {env : Env} {store : BlobStore} {req : Request} {r : Response} {fx : List Effect}
    (hm : req.method ≠ "OPTIONS")
    (hd : dispatch env store (strOr req.action "unknown") req [] = (.ok r, fx)) :
    handler env store req = (r, fx) := by
  unfold handler
  rw [if_neg hm, hd]

theorem handler_of_error {env : Env} {store : BlobStore} {req : Request} {e : JsError} {fx : List Effect}
    (hm : req.method ≠ "OPTIONS")
    (hd : dispatch env store (strOr req.action "unknown") req [] = (.error e, fx)) :
    handler env store req = (jsonResponse (errorBody env e) 500 corsHeaders, fx) := by
  unfold handler
  rw [if_neg hm, hd]

theorem dispatch_upload (env : Env) (store : BlobStore) (req : Request) :
    dispatch env store "upload" req = uploadRoute env store req := rfl

theorem dispatch_cc_get {req : Request} (env : Env) (store : BlobStore)
    (hm : req.method = "GET") :
    dispatch env store "cc" req = ccGetRoute store := by
  unfold dispatch
  rw [hm]
  rfl

theorem dispatch_cc_post {req : Request} (env : Env) (store : BlobStore)
    (hm : req.method = "POST") :
    dispatch env store "cc" req = ccPostRoute env store req := by
  unfold dispatch
  rw [hm]
  rfl

theorem dispatch_cc_delete {req : Request} (env : Env) (store : BlobStore)
    (hm : req.method = "DELETE") :
    dispatch env store "cc" req = ccDeleteRoute store req := by
  unfold dispatch
  rw [hm]
  rfl

theorem dispatch_cc_other {req : Request} (env : Env) (store : BlobStore) (fx : List Effect)
    (h1 : req.method ≠ "GET") (h2 : req.method ≠ "POST") (h3 : req.method ≠ "DELETE") :
    dispatch env store "cc" req fx = (.ok (jsonResponse invalidActionBody 404 corsHeaders), fx) := by
  unfold dispatch
  simp [h1, h2, h3]

theorem dispatch_save_enhanced (env : Env) (store : BlobStore) (req : Request) :
    dispatch env store "save-enhanced" req = saveEnhancedRoute env store req := rfl

theorem dispatch_list_uploads (env : Env) (store : BlobStore) (req : Request) :
    dispatch env store "list-uploads" req = listUploadsRoute store req := rfl

theorem dispatch_delete_upload (env : Env) (store : BlobStore) (req : Request) :
    dispatch env store "delete-upload" req = deleteUploadRoute store req := rfl

theorem dispatch_get_metadata (env : Env) (store : BlobStore) (req : Request) :
    dispatch env store "get-metadata" req = getMetadataRoute store req := rfl

theorem dispatch_health (env : Env) (store : BlobStore) (req : Request) :
    dispatch env store "health" req = healthRoute env := rfl

theorem dispatch_unknown {a : String} (env : Env) (store : BlobStore) (req : Request) (fx : List Effect)
    (hu : a ≠ "upload") (hc : a ≠ "cc") (hs : a ≠ "save-enhanced") (hl : a ≠ "list-uploads")
    (hd : a ≠ "delete-upload") (hg : a ≠ "get-metadata") (hh : a ≠ "health") :
    dispatch env store a req fx = (.ok (jsonResponse invalidActionBody 404 corsHeaders), fx) := by
  unfold dispatch
  simp [hu, hc, hs, hl, hd, hg, hh]

/-! Claim theorems. -/

/-- C6: every request with method OPTIONS short-circuits with status 200,
an empty body and the CORS headers, and performs no store call. -/
theorem c6_options_preflight (env : Env) (store : BlobStore) (req : Request)
    (hm : req.method = "OPTIONS") :
    handler env store req = ({ status := 200, headers := corsHeaders, body := none }, []) := by
  unfold handler
  rw [if_pos hm]

/-- C6 witness: a concrete OPTIONS request (with an action parameter set)
gets the preflight response and an empty effect trace. -/
theorem c6_options_preflight_witness :
    handler envProd storeOk { baseReq with method := "OPTIONS", action := some "upload" } =
      ({ status := 200, headers := corsHeaders, body := none }, []) :=
  c6_options_preflight envProd storeOk { baseReq with method := "OPTIONS", action := some "upload" } rfl

/-- C7: every response of the handler, on every path, carries the three
CORS headers. -/
theorem c7_cors_headers_always (env : Env) (store : BlobStore) (req : Request) :
    ("Access-Control-Allow-Origin", "*") ∈ (handler env store req).fst.headers ∧
    ("Access-Control-Allow-Methods", "GET, POST, DELETE, OPTIONS") ∈ (handler env store req).fst.headers ∧
    ("Access-Control-Allow-Headers", "Content-Type") ∈ (handler env store req).fst.headers := by
  rw [handler_headers]
  refine ⟨?_, ?_, ?_⟩ <;> simp [corsHeaders]

/-- The names the dispatch chain recognizes. -/
def knownActionNames : List String :=
  ["upload", "cc", "save-enhanced", "list-uploads", "delete-upload", "get-metadata", "health"]

/-- C3: a non-OPTIONS request whose action (after the `"unknown"` default)
is none of the seven known names gets the 404 `Invalid action` response with
the fixed seven-item list, with no store call; a GET with action `health`
gets 200 with `status:"healthy"` and the same seven-item list. -/
theorem c3_unknown_and_health (env : Env) (store : BlobStore) (req : Request) :
    (req.method ≠ "OPTIONS" → strOr req.action "unknown" ∉ knownActionNames →
       handler env store req = (jsonResponse invalidActionBody 404 corsHeaders, [])) ∧
    (req.method = "GET" → strOr req.action "unknown" = "health" →
       handler env store req = (jsonResponse (healthBody env) 200 corsHeaders, [])) ∧
    healthActions = fallbackActions ∧ healthActions.length = 7 := by
  refine ⟨?_, ?_, rfl, rfl⟩
  · intro hm ha
    have hne : ∀ s, s ∈ knownActionNames → strOr req.action "unknown" ≠ s :=
      fun s hs h => ha (h ▸ hs)
    refine handler_of_ok hm ?_
    exact dispatch_unknown env store req []
      (hne "upload" (by decide)) (hne "cc" (by decide)) (hne "save-enhanced" (by decide))
      (hne "list-uploads" (by decide)) (hne "delete-upload" (by decide))
      (hne "get-metadata" (by decide)) (hne "health" (by decide))
  · intro hm ha
    refine handler_of_ok (by rw [hm]; decide) ?_
    rw [ha, dispatch_health]
    rfl

/-- C3 witness: a GET with no action parameter gets the 404 fallback, and a
GET with action `health` gets the health response. -/
theorem c3_unknown_and_health_witness :
    handler envProd storeOk baseReq = (jsonResponse invalidActionBody 404 corsHeaders, []) ∧
    handler envProd storeOk { baseReq with action := some "health" } =
      (jsonResponse (healthBody envProd) 200 corsHeaders, []) :=
  ⟨(c3_unknown_and_health envProd storeOk baseReq).1 (by decide) (by decide),
   (c3_unknown_and_health envProd storeOk { baseReq with action := some "health" }).2.1 rfl rfl⟩

/-- C1 (amended): for the single-method actions a non-OPTIONS request with
the wrong method gets the 405 `Method not allowed` envelope with no store
call; but for `cc`, a method other than GET/POST/DELETE falls through the
source's `cc` block to the 404 `Invalid action` response. -/
theorem c1_method_mismatch (env : Env) (store : BlobStore) (req : Request)
    (hm : req.method ≠ "OPTIONS") :
    ((strOr req.action "unknown" = "upload" ∨ strOr req.action "unknown" = "save-enhanced") →
       req.method ≠ "POST" →
       handler env store req = (jsonResponse (errEnvelope "Method not allowed") 405 corsHeaders, [])) ∧
    ((strOr req.action "unknown" = "list-uploads" ∨ strOr req.action "unknown" = "get-metadata") →
       req.method ≠ "GET" →
       handler env store req = (jsonResponse (errEnvelope "Method not allowed") 405 corsHeaders, [])) ∧
    (strOr req.action "unknown" = "delete-upload" → req.method ≠ "DELETE" →
       handler env store req = (jsonResponse (errEnvelope "Method not allowed") 405 corsHeaders, [])) ∧
    (strOr req.action "unknown" = "cc" →
       req.method ≠ "GET" → req.method ≠ "POST" → req.method ≠ "DELETE" →
       handler env store req = (jsonResponse invalidActionBody 404 corsHeaders, [])) := by
  refine ⟨?_, ?_, ?_, ?_⟩
  · rintro (ha | ha) hpost
    · refine handler_of_ok hm ?_
      rw [ha, dispatch_upload]
      unfold uploadRoute
      rw [if_pos hpost]
    · refine handler_of_ok hm ?_
      rw [ha, dispatch_save_enhanced]
      unfold saveEnhancedRoute
      rw [if_pos hpost]
  · rintro (ha | ha) hget
    · refine handler_of_ok hm ?_
      rw [ha, dispatch_list_uploads]
      unfold listUploadsRoute
      rw [if_pos hget]
    · refine handler_of_ok hm ?_
      rw [ha, dispatch_get_metadata]
      unfold getMetadataRoute
      rw [if_pos hget]
  · intro ha hdel
    refine handler_of_ok hm ?_
    rw [ha, dispatch_delete_upload]
    unfold deleteUploadRoute
    rw [if_pos hdel]
  · intro ha h1 h2 h3
    refine handler_of_ok hm ?_
    rw [ha]
    exact dispatch_cc_other env store [] h1 h2 h3

/-- C1 witness: a GET upload request gets 405, and a PUT `cc` request falls
through to the 404 response. -/
theorem c1_method_mismatch_witness :
    handler envProd storeOk { baseReq with action := some "upload" } =
      (jsonResponse (errEnvelope "Method not allowed") 405 corsHeaders, []) ∧
    handler envProd storeOk { baseReq with method := "PUT", action := some "cc" } =
      (jsonResponse invalidActionBody 404 corsHeaders, []) :=
  ⟨(c1_method_mismatch envProd storeOk { baseReq with action := some "upload" } (by decide)).1
      (Or.inl rfl) (by decide),
   (c1_method_mismatch envProd storeOk { baseReq with method := "PUT", action := some "cc" }
      (by decide)).2.2.2 rfl (by decide) (by decide) (by decide)⟩

/-- C1 counterexample to the claim as stated: a `cc` request with method PUT
(a method the action does not support) is answered with status 404
`Invalid action`, not with status 405 `Method not allowed`. -/
theorem c1_cc_put_counterexample :
    (handler envProd storeOk { baseReq with method := "PUT", action := some "cc" }).fst.status = 404 ∧
    (handler envProd storeOk { baseReq with method := "PUT", action := some "cc" }).fst.status ≠ 405 ∧
    (handler envProd storeOk { baseReq with method := "PUT", action := some "cc" }).fst.body =
      some invalidActionBody :=
  ⟨rfl, by decide, rfl⟩

/-- If a property access returns a value, the accessed `Json` is an object. -/
theorem getField_obj {b : Json} {k : String} {v : Json}
    (h : getField b k = some v) : ∃ fs, b = Json.obj fs := by
  cases b with
  | obj fs => exact ⟨fs, rfl⟩
  | null => exact Option.noConfusion h
  | bool x => exact Option.noConfusion h
  | num x => exact Option.noConfusion h
  | str x => exact Option.noConfusion h
  | arr x => exact Option.noConfusion h

/-- C8 (amended): an exception thrown inside the dispatched handler is
caught at the router boundary and answered with status 500; the `error`
field is the exception's message, or `Internal server error` when that
message is empty; and the `stack` field is present if and only if
`NODE_ENV` is exactly `development`. -/
theorem c8_catch_all (env : Env) (store : BlobStore) (req : Request) (e : JsError) (fx : List Effect)
    (hm : req.method ≠ "OPTIONS")
    (hd : dispatch env store (strOr req.action "unknown") req [] = (.error e, fx)) :
    handler env store req = (jsonResponse (errorBody env e) 500 corsHeaders, fx) ∧
    (handler env store req).fst.status = 500 ∧
    getField (errorBody env e) "error" =
      some (.str (if e.message = "" then "Internal server error" else e.message)) ∧
    getField (errorBody env e) "stack" =
      (if env.nodeEnv = "development" then some (.str e.stack) else none) := by
  have h := handler_of_error hm hd
  refine ⟨h, by rw [h]; rfl, rfl, ?_⟩
  by_cases hdev : env.nodeEnv = "development"
  · rw [if_pos hdev]
    unfold errorBody
    rw [if_pos hdev]
    rfl
  · rw [if_neg hdev]
    unfold errorBody
    rw [if_neg hdev]
    rfl

/-- C8 witness: in a development build, a `cc` POST whose body fails to
parse is answered with 500, the parse error's message, and its stack. -/
theorem c8_catch_all_witness :
    handler envDev storeOk reqCcPostBadJson = (jsonResponse (errorBody envDev errParse) 500 corsHeaders, []) ∧
    (handler envDev storeOk reqCcPostBadJson).fst.status = 500 ∧
    getField (errorBody envDev errParse) "error" =
      some (.str (if errParse.message = "" then "Internal server error" else errParse.message)) ∧
    getField (errorBody envDev errParse) "stack" =
      (if envDev.nodeEnv = "development" then some (.str errParse.stack) else none) :=
  c8_catch_all envDev storeOk reqCcPostBadJson errParse [] (by decide) rfl

/-- C8 counterexample to the claim as stated: with `NODE_ENV=test` — a
non-production build — a thrown empty-message error yields a 500 whose body
has no `stack` field, and whose `error` field is the fallback text rather
than the exception's (empty) message. -/
theorem c8_nonproduction_counterexample :
    envTest.nodeEnv ≠ "production" ∧
    (handler envTest storeOk reqCcPostEmptyMsg).fst.status = 500 ∧
    getField ((handler envTest storeOk reqCcPostEmptyMsg).fst.body.getD .null) "stack" = none ∧
    getField ((handler envTest storeOk reqCcPostEmptyMsg).fst.body.getD .null) "error" =
      some (.str "Internal server error") ∧
    errEmptyMsg.message = "" :=
  ⟨by decide, rfl, rfl, rfl, rfl⟩

/-- C10: the `cc` POST validation is on truthiness, not presence — a body
whose `name` and `values` fields are both present but at least one of which
is falsy is rejected with 400 `Missing name or values`, with no store call. -/
theorem c10_truthiness_validation (env : Env) (store : BlobStore) (req : Request)
    (b nv vv : Json)
    (hm : req.method = "POST") (ha : strOr req.action "unknown" = "cc")
    (hb : req.jsonBody = .ok b)
    (hn : getField b "name" = some nv) (hv : getField b "values" = some vv)
    (hfalsy : truthy nv = false ∨ truthy vv = false) :
    handler env store req = (jsonResponse (errEnvelope "Missing name or values") 400 corsHeaders, []) := by
  obtain ⟨fs, rfl⟩ := getField_obj hn
  refine handler_of_ok (by rw [hm]; decide) ?_
  rw [ha, dispatch_cc_post env store hm]
  unfold ccPostRoute
  rw [hb]
  dsimp only []
  rw [hn, hv]
  have hcond : (!truthyO (some nv) || !truthyO (some vv)) = true := by
    rcases hfalsy with hf | hf <;> simp [truthyO, hf]
  rw [if_pos hcond]

/-- C10 witness: `{"name":"x","values":0}` — both fields present, `values`
falsy — is rejected with 400. -/
theorem c10_truthiness_validation_witness :
    handler envProd storeOk reqCcPostZeroValues =
      (jsonResponse (errEnvelope "Missing name or values") 400 corsHeaders, []) :=
  c10_truthiness_validation envProd storeOk reqCcPostZeroValues
    (.obj [("name", .str "x"), ("values", .num 0)]) (.str "x") (.num 0)
    rfl rfl rfl rfl rfl (Or.inr rfl)

/-- C4 counterexample to the claim as stated: a body whose `name` field is
present (the empty string) with truthy `values` does not "lack name", yet
the response is 400 `Missing name or values` and nothing is stored, where
the claim's otherwise-branch promises a success envelope and a stored
object. -/
theorem c4_present_empty_name_counterexample :
    getField (Json.obj [("name", Json.str ""), ("values", Json.obj [("a", Json.num 1)])]) "name" =
      some (Json.str "") ∧
    (handler envProd storeOk reqCcPostEmptyName).fst.status = 400 ∧
    (handler envProd storeOk reqCcPostEmptyName).fst.body = some (errEnvelope "Missing name or values") ∧
    (handler envProd storeOk reqCcPostEmptyName).snd = [] :=
  ⟨rfl, rfl, rfl, rfl⟩

/-- C4 (amended): on a `cc` POST with a parsed non-null body, a missing or
falsy `name` or `values` yields 400 `Missing name or values` with no store
call; when `name` is a nonempty string and `values` is truthy, the document
is stored at `cc-filters/<safeName>_<timestamp>.json` (every character
outside `[a-zA-Z0-9-_]` of the name replaced by an underscore) and the
response echoes the unsanitized name with `success`, `url` and
`uploadedAt`. -/
theorem c4_cc_post (env : Env) (store : BlobStore) (req : Request) (b : Json)
    (hm : req.method = "POST") (ha : strOr req.action "unknown" = "cc")
    (hb : req.jsonBody = .ok b) (hnn : b ≠ Json.null) :
    ((truthyO (getField b "name") = false ∨ truthyO (getField b "values") = false) →
       handler env store req = (jsonResponse (errEnvelope "Missing name or values") 400 corsHeaders, [])) ∧
    (∀ (s : String) (v : Json) (blob : Blob),
       getField b "name" = some (.str s) → s ≠ "" →
       getField b "values" = some v → truthy v = true →
       store.put ("cc-filters/" ++ sanitizeName s ++ "_" ++ toString env.now ++ ".json")
         (.jsonText b) { access := "public", contentType := some "application/json" } = .ok blob →
       handler env store req =
         (jsonResponse (.obj [("success", .bool true), ("url", .str blob.url),
            ("name", .str s), ("uploadedAt", .str env.nowISO)]) 200 corsHeaders,
          [Effect.put ("cc-filters/" ++ sanitizeName s ++ "_" ++ toString env.now ++ ".json")
             (.jsonText b) { access := "public", contentType := some "application/json" }])) := by
  constructor
  · intro hfalsy
    refine handler_of_ok (by rw [hm]; decide) ?_
    rw [ha, dispatch_cc_post env store hm]
    unfold ccPostRoute
    rw [hb]
    have hcond : (!truthyO (getField b "name") || !truthyO (getField b "values")) = true := by
      rcases hfalsy with hf | hf <;> simp [hf]
    rcases b with _ | bb | nn | ss | ar | ob
    · exact absurd rfl hnn
    all_goals dsimp only []
    all_goals rw [if_pos hcond]
  · intro s v blob hn hs hv htv hput
    obtain ⟨fs, hfs⟩ := getField_obj hn
    subst hfs
    refine handler_of_ok (by rw [hm]; decide) ?_
    rw [ha, dispatch_cc_post env store hm]
    unfold ccPostRoute
    rw [hb]
    dsimp only []
    rw [hn, hv]
    have h1 : truthy (Json.str s) = true := by simp [truthy, hs]
    have hcond : (!truthyO (some (Json.str s)) || !truthyO (some v)) = false := by
      simp [truthyO, h1, htv]
    have hncond : ¬((!truthyO (some (Json.str s)) || !truthyO (some v)) = true) := by
      rw [hcond]; decide
    rw [if_neg hncond]
    dsimp only []
    rw [hput]
    dsimp only []
    rfl

/-- C4 witness: `{}` is rejected with 400, and
`{"name":"My Filter!","values":{"a":1}}` is stored at
`cc-filters/My_Filter__1712345.json` with the name echoed unsanitized. -/
theorem c4_cc_post_witness :
    handler envProd storeOk reqCcPostEmptyBody =
      (jsonResponse (errEnvelope "Missing name or values") 400 corsHeaders, []) ∧
    handler envProd storeOk reqCcPostMyFilter =
      (jsonResponse (.obj [("success", .bool true),
         ("url", .str "https://blob.test/cc-filters/My_Filter__1712345.json"),
         ("name", .str "My Filter!"), ("uploadedAt", .str "2026-10-12T00:00:00.000Z")]) 200 corsHeaders,
       [Effect.put "cc-filters/My_Filter__1712345.json"
          (.jsonText (.obj [("name", .str "My Filter!"), ("values", .obj [("a", .num 1)])]))
          { access := "public", contentType := some "application/json" }]) := by
  constructor
  · exact (c4_cc_post envProd storeOk reqCcPostEmptyBody (.obj []) rfl rfl rfl
      (fun h => Json.noConfusion h)).1 (Or.inl rfl)
  · have h := (c4_cc_post envProd storeOk reqCcPostMyFilter
      (.obj [("name", .str "My Filter!"), ("values", .obj [("a", .num 1)])]) rfl rfl rfl
      (fun h => Json.noConfusion h)).2 "My Filter!" (.obj [("a", .num 1)]) blobMyFilter
      rfl (by decide) rfl rfl rfl
    exact h

/-- C5: on a `cc` GET, when listing succeeds the response is a success with
`filters` exactly the per-blob resolutions that did not fail and `count`
their number; a blob whose document cannot be fetched or parsed resolves to
`none` and is therefore dropped. -/
theorem c5_cc_get_partial_failure (env : Env) (store : BlobStore) (req : Request) (blobs : List Blob)
    (hm : req.method = "GET") (ha : strOr req.action "unknown" = "cc")
    (hl : store.listBlobs "cc-filters/" (some 100) = .ok blobs) :
    handler env store req =
      (jsonResponse (.obj
        [("success", .bool true),
         ("filters", .arr (blobs.filterMap (resolveFilter store))),
         ("count", .num ((blobs.filterMap (resolveFilter store)).length : Int))]) 200 corsHeaders,
       Effect.list "cc-filters/" (some 100) :: fetchEffects blobs) ∧
    (∀ blob : Blob, store.fetchJson blob.url = none → resolveFilter store blob = none) := by
  constructor
  · refine handler_of_ok (by rw [hm]; decide) ?_
    rw [ha, dispatch_cc_get env store hm]
    unfold ccGetRoute
    rw [hl]
    dsimp only []
    simp only [List.filterMap_map, Function.id_comp, List.nil_append, List.singleton_append]
  · intro blob hf
    unfold resolveFilter
    rw [hf]

/-- On a POST with a parsed object body whose `image` field is a string
matching the data-URL pattern with a decodable payload, the save-enhanced
route reduces to its write phase. -/
theorem saveEnhancedRoute_valid (env : Env) (store : BlobStore) (req : Request)
    (fs : List (String × Json)) (s payload : String) (bytes : List Nat) (fx : List Effect)
    (hm : req.method = "POST")
    (hb : req.jsonBody = .ok (.obj fs))
    (himg : getField (.obj fs) "image" = some (.str s))
    (hmatch : dataUrlMatch s = some payload)
    (hatob : atob payload = some bytes) :
    saveEnhancedRoute env store req fx =
      saveEnhancedWrite env store (getField (.obj fs) "metadata") bytes fx := by
  unfold saveEnhancedRoute
  rw [if_neg (fun hne => hne hm), hb]
  dsimp only []
  have hs : s ≠ "" := by
    intro h
    rw [h] at hmatch
    exact Option.noConfusion hmatch
  have himgT : truthyO (getField (Json.obj fs) "image") = true := by
    rw [himg]; simp [truthyO, truthy, hs]
  rw [himgT]
  rw [if_neg (by decide : ¬((!true) = true))]
  rw [himg]
  dsimp only []
  rw [hmatch]
  dsimp only []
  rw [hatob]

/-- C9: a save-enhanced POST with a valid data-URL image and no `metadata`
field performs exactly one store write — the decoded image under
`enhanced/` — and answers with `success`, `url`, `downloadUrl`, `size`. -/
theorem c9_save_enhanced_single_write (env : Env) (store : BlobStore) (req : Request)
    (b : Json) (s payload : String) (bytes : List Nat) (blob : Blob)
    (hm : req.method = "POST") (ha : strOr req.action "unknown" = "save-enhanced")
    (hb : req.jsonBody = .ok b)
    (himg : getField b "image" = some (.str s))
    (hmatch : dataUrlMatch s = some payload)
    (hatob : atob payload = some bytes)
    (hmeta : getField b "metadata" = none)
    (hput : store.put ("enhanced/enhanced_" ++ toString env.now ++ ".jpg") (.bytes bytes)
      { access := "public", contentType := some "image/jpeg" } = .ok blob) :
    handler env store req =
      (jsonResponse (.obj [("success", .bool true), ("url", .str blob.url),
         ("downloadUrl", .str blob.downloadUrl), ("size", .num (blob.size : Int))]) 200 corsHeaders,
       [Effect.put ("enhanced/enhanced_" ++ toString env.now ++ ".jpg") (.bytes bytes)
          { access := "public", contentType := some "image/jpeg" }]) := by
  obtain ⟨fs, hfs⟩ := getField_obj himg
  subst hfs
  refine handler_of_ok (by rw [hm]; decide) ?_
  rw [ha, dispatch_save_enhanced,
    saveEnhancedRoute_valid env store req fs s payload bytes [] hm hb himg hmatch hatob]
  unfold saveEnhancedWrite
  dsimp only []
  rw [hput]
  dsimp only []
  unfold saveMetadataPut
  rw [hmeta]
  dsimp only []
  rfl

/-- C9 witness: `{"image":"data:image/png;base64,AAAA"}` decodes to three
zero bytes, is stored once under `enhanced/enhanced_1712345.jpg`, with no
metadata write. -/
theorem c9_save_enhanced_single_write_witness :
    handler envProd storeOk reqSaveNoMeta =
      (jsonResponse (.obj [("success", .bool true),
         ("url", .str "https://blob.test/enhanced/enhanced_1712345.jpg"),
         ("downloadUrl", .str "https://blob.test/enhanced/enhanced_1712345.jpg?download=1"),
         ("size", .num 3)]) 200 corsHeaders,
       [Effect.put "enhanced/enhanced_1712345.jpg" (.bytes [0, 0, 0])
          { access := "public", contentType := some "image/jpeg" }]) := by
  have h := c9_save_enhanced_single_write envProd storeOk reqSaveNoMeta
    (.obj [("image", .str "data:image/png;base64,AAAA")]) "data:image/png;base64,AAAA" "AAAA"
    [0, 0, 0] blobEnhanced rfl rfl rfl rfl rfl rfl rfl rfl
  exact h

/-- C2 (amended): in the save-enhanced flow with truthy metadata, when the
image write succeeds and the secondary metadata put fails, the failure
propagates to the router catch: the request is answered with the 500 error
envelope, not the success envelope; the primary image write has happened
and is not rolled back (the trace holds both puts and no delete). -/
theorem c2_metadata_put_failure (env : Env) (store : BlobStore) (req : Request)
    (b : Json) (s payload : String) (bytes : List Nat) (blob : Blob) (m : Json) (e : JsError)
    (hm : req.method = "POST") (ha : strOr req.action "unknown" = "save-enhanced")
    (hb : req.jsonBody = .ok b)
    (himg : getField b "image" = some (.str s))
    (hmatch : dataUrlMatch s = some payload)
    (hatob : atob payload = some bytes)
    (hmeta : getField b "metadata" = some m) (hmt : truthy m = true)
    (hputok : store.put ("enhanced/enhanced_" ++ toString env.now ++ ".jpg") (.bytes bytes)
      { access := "public", contentType := some "image/jpeg" } = .ok blob)
    (hpute : store.put ("metadata/meta_" ++ toString env.now ++ ".json")
      (.jsonText (metadataDoc m blob.url env.nowISO))
      { access := "public", contentType := some "application/json" } = .error e) :
    handler env store req =
      (jsonResponse (errorBody env e) 500 corsHeaders,
       [Effect.put ("enhanced/enhanced_" ++ toString env.now ++ ".jpg") (.bytes bytes)
          { access := "public", contentType := some "image/jpeg" },
        Effect.put ("metadata/meta_" ++ toString env.now ++ ".json")
          (.jsonText (metadataDoc m blob.url env.nowISO))
          { access := "public", contentType := some "application/json" }]) ∧
    (handler env store req).fst.status = 500 ∧
    (∀ u : String, Effect.del u ∉ (handler env store req).snd) := by
  obtain ⟨fs, hfs⟩ := getField_obj himg
  subst hfs
  have hd : dispatch env store (strOr req.action "unknown") req [] =
      (.error e,
       [Effect.put ("enhanced/enhanced_" ++ toString env.now ++ ".jpg") (.bytes bytes)
          { access := "public", contentType := some "image/jpeg" },
        Effect.put ("metadata/meta_" ++ toString env.now ++ ".json")
          (.jsonText (metadataDoc m blob.url env.nowISO))
          { access := "public", contentType := some "application/json" }]) := by
    rw [ha, dispatch_save_enhanced,
      saveEnhancedRoute_valid env store req fs s payload bytes [] hm hb himg hmatch hatob]
    unfold saveEnhancedWrite
    dsimp only []
    rw [hputok]
    dsimp only []
    unfold saveMetadataPut
    rw [hmeta]
    dsimp only []
    rw [if_pos hmt]
    rw [hpute]
    rfl
  have hh := handler_of_error (by rw [hm]; decide) hd
  refine ⟨hh, by rw [hh]; rfl, ?_⟩
  intro u hu
  rw [hh] at hu
  rcases List.mem_cons.mp hu with h | h
  · exact Effect.noConfusion h
  · rcases List.mem_cons.mp h with h2 | h2
    · exact Effect.noConfusion h2
    · exact List.not_mem_nil _ h2

/-- C2 counterexample to the claim as stated: with a failing metadata store,
the request is answered with 500 and `success:false` — not the success
envelope — while the trace shows the image put was performed and no delete
(no rollback) was issued. -/
theorem c2_metadata_put_failure_counterexample :
    handler envProd storeMetaFails reqSaveWithMeta =
      (jsonResponse (errorBody envProd errMeta) 500 corsHeaders,
       [Effect.put "enhanced/enhanced_1712345.jpg" (.bytes [0, 0, 0])
          { access := "public", contentType := some "image/jpeg" },
        Effect.put "metadata/meta_1712345.json"
          (.jsonText (.obj [("label", .str "sunset"),
            ("imageUrl", .str "https://blob.test/enhanced/enhanced_1712345.jpg"),
            ("timestamp", .str "2026-10-12T00:00:00.000Z")]))
          { access := "public", contentType := some "application/json" }]) ∧
    (handler envProd storeMetaFails reqSaveWithMeta).fst.status ≠ 200 ∧
    getField (errorBody envProd errMeta) "success" = some (.bool false) :=
  ⟨rfl, by decide, rfl⟩

/-- C2 witness for the amended claim, at the same concrete scenario. -/
theorem c2_metadata_put_failure_witness :
    handler envProd storeMetaFails reqSaveWithMeta =
      (jsonResponse (errorBody envProd errMeta) 500 corsHeaders,
       [Effect.put ("enhanced/enhanced_" ++ toString envProd.now ++ ".jpg") (.bytes [0, 0, 0])
          { access := "public", contentType := some "image/jpeg" },
        Effect.put ("metadata/meta_" ++ toString envProd.now ++ ".json")
          (.jsonText (metadataDoc (.obj [("label", .str "sunset")])
            "https://blob.test/enhanced/enhanced_1712345.jpg" envProd.nowISO))
          { access := "public", contentType := some "application/json" }]) ∧
    (handler envProd storeMetaFails reqSaveWithMeta).fst.status = 500 ∧
    (∀ u : String, Effect.del u ∉ (handler envProd storeMetaFails reqSaveWithMeta).snd) :=
  c2_metadata_put_failure envProd storeMetaFails reqSaveWithMeta
    (.obj [("image", .str "data:image/png;base64,AAAA"), ("metadata", .obj [("label", .str "sunset")])])
    "data:image/png;base64,AAAA" "AAAA" [0, 0, 0] blobEnhanced
    (.obj [("label", .str "sunset")]) errMeta
    rfl rfl rfl rfl rfl rfl rfl rfl rfl rfl

/-- C5 witness: with two stored filters of which one is unfetchable, the
response is a success with `count` 1 and `filters` holding only the
fetchable one. -/
theorem c5_cc_get_partial_failure_witness :
    handler envProd storeTwoFilters reqCcGet =
      (jsonResponse (.obj
        [("success", .bool true),
         ("filters", .arr [.obj [("name", .str "Warm"),
            ("url", .str "https://blob.test/cc-filters/a.json"),
            ("uploadedAt", .str "2026-10-01"), ("size", .num 10),
            ("values", .obj [("contrast", .num 2)])]]),
         ("count", .num 1)]) 200 corsHeaders,
       [Effect.list "cc-filters/" (some 100),
        Effect.fetch "https://blob.test/cc-filters/a.json",
        Effect.fetch "https://blob.test/cc-filters/b.json"]) ∧
    (∀ blob : Blob, storeTwoFilters.fetchJson blob.url = none →
       resolveFilter storeTwoFilters blob = none) := by
  have h := c5_cc_get_partial_failure envProd storeTwoFilters reqCcGet [blobA, blobB] rfl rfl rfl
  exact h

end Api
